import Mathlib

/-!
Shallow embedding of the repository's two scripts:

* `src/scripts/convert-string-interpolation.py` — the Template Converter
  `convert_raw_string_to_stringbuilder`, modelled line by line: Python
  `str.strip` becomes `pyStripList`, `str.split('\n')` becomes `splitLines`,
  `'\n'.join` becomes `joinNL`, and the per-line loop body becomes
  `emitLine` (delimiter skip) and `renderAppend` (blank / interpolated /
  literal classification).

* `src/scripts/fix-scanners.py` — the batch driver `__main__` loop, modelled
  as `runBatch` over `scanner_files`, with the fallible per-file operation
  (`fix_scanner_file`, which performs file I/O) abstracted as a parameter and
  its `try`/`except` reporting modelled by `batchStep`.

Strings are modelled as `List Char`; machine text operations in the source
are total, so every definition is a plain computable function.
-/

/-- Left and right brace characters (the interpolation markers). -/
def lbrace : Char := '\x7b'

def rbrace : Char := '\x7d'

/-- Python `str.isspace`-style predicate for the ASCII whitespace characters
that `str.strip()` removes. -/
def pyIsSpace (c : Char) : Bool :=
  c = ' ' || c = '\t' || c = '\n' || c = '\r' || c = '\x0b' || c = '\x0c'

/-- Python `line.strip()` on a list of characters: drop whitespace from both
ends. -/
def pyStripList (l : List Char) : List Char :=
  ((l.dropWhile pyIsSpace).reverse.dropWhile pyIsSpace).reverse

/-- Helper for `splitLines`: prepend a character to the first chunk. -/
def consHead (c : Char) : List (List Char) → List (List Char)
  | [] => [[c]]
  | r :: rs => (c :: r) :: rs

/-- Python `s.split('\n')`: split on every newline; the empty string yields
a single empty chunk, matching Python. -/
def splitLines : List Char → List (List Char)
  | [] => [[]]
  | c :: cs => if c = '\n' then [] :: splitLines cs else consHead c (splitLines cs)

/-- Python `'\n'.join(chunks)`. -/
def joinNL : List (List Char) → List Char
  | [] => []
  | [l] => l
  | l :: ls => l ++ '\n' :: joinNL ls

/-- The initialization statement `var sb = new StringBuilder();`. -/
def initStmt : List Char := "var sb = new StringBuilder();".toList

/-- The materialize statement `return sb.ToString();`. -/
def materializeStmt : List Char := "return sb.ToString();".toList

/-- The blank append statement `sb.AppendLine();`. -/
def blankStmt : List Char := "sb.AppendLine();".toList

/-- Opening text of a plain literal append statement. -/
def litPre : List Char := "sb.AppendLine(\"".toList

/-- Opening text of an interpolated append statement. -/
def intPre : List Char := "sb.AppendLine($\"".toList

/-- Closing text of both quoted append statements. -/
def sufx : List Char := "\");".toList

/-- The four delimiter markers skipped by the converter, in source order. -/
def delimMarkers : List (List Char) :=
  ["return $\"\"\"".toList, "\"\"\";".toList, "$\"\"\"".toList, "\"\"\"".toList]

/-- The loop body of the converter after the delimiter check: classify the
stripped content as blank, interpolated (both braces present) or literal,
and render the corresponding append statement. -/
def renderAppend (content : List Char) : List Char :=
  if content.isEmpty then blankStmt
  else if content.contains lbrace && content.contains rbrace then
    intPre ++ content ++ sufx
  else
    litPre ++ content ++ sufx

/-- One iteration of the converter's loop: skip a delimiter line, otherwise
emit exactly one append statement for the stripped content. -/
def emitLine (line : List Char) : Option (List Char) :=
  if delimMarkers.contains (pyStripList line) then none
  else some (renderAppend (pyStripList line))

/-- All append statements produced by the loop, in input order. -/
def appendStmts (raw : List Char) : List (List Char) :=
  (splitLines (pyStripList raw)).filterMap emitLine

/-- The full output statement list: initialization, the appends, materialize. -/
def convertLines (raw : List Char) : List (List Char) :=
  initStmt :: (appendStmts raw ++ [materializeStmt])

/-- The Template Converter `convert_raw_string_to_stringbuilder`: strip the
input, split into lines, convert each line, and join the statements with
newlines. -/
def convert_raw_string_to_stringbuilder (raw : String) : String :=
  String.mk (joinNL (convertLines raw.toList))

/-! ### Basic lemmas about the text primitives -/

lemma consHead_cons (c : Char) (r : List Char) (rs : List (List Char)) :
    consHead c (r :: rs) = (c :: r) :: rs := rfl

lemma splitLines_ne_nil (cs : List Char) : splitLines cs ≠ [] := by
  induction cs with
  | nil => simp [splitLines]
  | cons c cs ih =>
    simp only [splitLines]
    split
    · simp
    · obtain ⟨r, rs, hr⟩ := List.exists_cons_of_ne_nil ih
      rw [hr, consHead_cons]
      simp

lemma mem_splitLines_no_newline (cs : List Char) :
    ∀ l ∈ splitLines cs, '\n' ∉ l := by
  induction cs with
  | nil =>
    intro l hl
    simp [splitLines] at hl
    simp [hl]
  | cons c cs ih =>
    intro l hl
    simp only [splitLines] at hl
    by_cases hc : c = '\n'
    · rw [if_pos hc] at hl
      rcases List.mem_cons.mp hl with h | h
      · simp [h]
      · exact ih l h
    · rw [if_neg hc] at hl
      obtain ⟨r, rs, hr⟩ := List.exists_cons_of_ne_nil (splitLines_ne_nil cs)
      rw [hr, consHead_cons] at hl
      rcases List.mem_cons.mp hl with h | h
      · subst h
        intro hmem
        rcases List.mem_cons.mp hmem with h | h
        · exact hc h.symm
        · exact ih r (hr ▸ List.mem_cons_self r rs) h
      · exact ih l (hr ▸ List.mem_cons_of_mem r h)

lemma mem_pyStripList {c : Char} {l : List Char} (h : c ∈ pyStripList l) :
    c ∈ l := by
  unfold pyStripList at h
  rw [List.mem_reverse] at h
  have h1 := (List.dropWhile_sublist pyIsSpace).mem h
  rw [List.mem_reverse] at h1
  exact (List.dropWhile_sublist pyIsSpace).mem h1

lemma splitLines_append_newline (l rest : List Char) (h : '\n' ∉ l) :
    splitLines (l ++ '\n' :: rest) = l :: splitLines rest := by
  induction l with
  | nil => simp [splitLines]
  | cons c cs ih =>
    have hc : c ≠ '\n' := fun hne => h (hne ▸ List.mem_cons_self c cs)
    have hcs : '\n' ∉ cs := fun hm => h (List.mem_cons_of_mem c hm)
    simp only [List.cons_append, splitLines, if_neg hc, List.append_eq, ih hcs,
      consHead_cons]

lemma splitLines_no_newline (l : List Char) (h : '\n' ∉ l) :
    splitLines l = [l] := by
  induction l with
  | nil => rfl
  | cons c cs ih =>
    have hc : c ≠ '\n' := fun hne => h (hne ▸ List.mem_cons_self c cs)
    have hcs : '\n' ∉ cs := fun hm => h (List.mem_cons_of_mem c hm)
    simp only [splitLines, if_neg hc, ih hcs, consHead_cons]

lemma joinNL_cons₂ (a b : List Char) (ls : List (List Char)) :
    joinNL (a :: b :: ls) = a ++ '\n' :: joinNL (b :: ls) := rfl

lemma splitLines_joinNL (ls : List (List Char)) (h0 : ls ≠ [])
    (h : ∀ l ∈ ls, '\n' ∉ l) : splitLines (joinNL ls) = ls := by
  induction ls with
  | nil => exact absurd rfl h0
  | cons l ls ih =>
    cases ls with
    | nil =>
      show splitLines (joinNL [l]) = [l]
      exact splitLines_no_newline l (h l (List.mem_cons_self l []))
    | cons l2 ls2 =>
      rw [joinNL_cons₂,
        splitLines_append_newline l _ (h l (List.mem_cons_self l _)),
        ih (by simp) (fun x hx => h x (List.mem_cons_of_mem l hx))]

/-! ### Shape of the rendered statements -/

lemma head_litPre_append (x : List Char) : (litPre ++ x).head? = some 's' := rfl

lemma head_intPre_append (x : List Char) : (intPre ++ x).head? = some 's' := rfl

lemma head_initStmt : initStmt.head? = some 'v' := rfl

lemma head_materializeStmt : materializeStmt.head? = some 'r' := rfl

lemma renderAppend_ne_init (c : List Char) : renderAppend c ≠ initStmt := by
  unfold renderAppend
  split
  · decide
  split
  · intro h
    have h2 := congrArg List.head? h
    rw [List.append_assoc, head_intPre_append, head_initStmt] at h2
    exact absurd h2 (by decide)
  · intro h
    have h2 := congrArg List.head? h
    rw [List.append_assoc, head_litPre_append, head_initStmt] at h2
    exact absurd h2 (by decide)

lemma renderAppend_ne_materialize (c : List Char) :
    renderAppend c ≠ materializeStmt := by
  unfold renderAppend
  split
  · decide
  split
  · intro h
    have h2 := congrArg List.head? h
    rw [List.append_assoc, head_intPre_append, head_materializeStmt] at h2
    exact absurd h2 (by decide)
  · intro h
    have h2 := congrArg List.head? h
    rw [List.append_assoc, head_litPre_append, head_materializeStmt] at h2
    exact absurd h2 (by decide)

lemma renderAppend_no_newline {c : List Char} (h : '\n' ∉ c) :
    '\n' ∉ renderAppend c := by
  unfold renderAppend
  split
  · decide
  split
  · intro hm
    rw [List.append_assoc, List.mem_append, List.mem_append] at hm
    rcases hm with hm | hm | hm
    · exact absurd hm (by decide)
    · exact h hm
    · exact absurd hm (by decide)
  · intro hm
    rw [List.append_assoc, List.mem_append, List.mem_append] at hm
    rcases hm with hm | hm | hm
    · exact absurd hm (by decide)
    · exact h hm
    · exact absurd hm (by decide)

/-! ### The loop as a filter–map -/

lemma emitLine_eq_none {line : List Char}
    (h : delimMarkers.contains (pyStripList line) = true) :
    emitLine line = none := by
  unfold emitLine
  rw [if_pos h]

lemma emitLine_eq_some {line : List Char}
    (h : delimMarkers.contains (pyStripList line) = false) :
    emitLine line = some (renderAppend (pyStripList line)) := by
  unfold emitLine
  have hne : ¬ delimMarkers.contains (pyStripList line) = true := by
    rw [h]; exact Bool.false_ne_true
  rw [if_neg hne]

lemma emitLine_some_inv {line stmt : List Char}
    (h : emitLine line = some stmt) :
    delimMarkers.contains (pyStripList line) = false ∧
      stmt = renderAppend (pyStripList line) := by
  unfold emitLine at h
  split at h
  · exact absurd h (by simp)
  · exact ⟨by simpa using (by assumption : ¬delimMarkers.contains (pyStripList line) = true),
      (Option.some.injEq _ _ ▸ h).symm⟩

lemma filterMap_emitLine (ls : List (List Char)) :
    ls.filterMap emitLine =
      (ls.filter (fun l => ! delimMarkers.contains (pyStripList l))).map
        (fun l => renderAppend (pyStripList l)) := by
  induction ls with
  | nil => rfl
  | cons l ls ih =>
    rw [List.filterMap_cons]
    by_cases h : delimMarkers.contains (pyStripList l) = true
    · rw [emitLine_eq_none h, List.filter_cons_of_neg (by rw [h]; decide)]
      exact ih
    · have h' : delimMarkers.contains (pyStripList l) = false := by
        simpa using h
      rw [emitLine_eq_some h', List.filter_cons_of_pos (by rw [h']; decide),
        List.map_cons, ih]

/-! ### Decomposing the converter's output back into lines -/

lemma convert_toList (raw : String) :
    (convert_raw_string_to_stringbuilder raw).toList =
      joinNL (convertLines raw.toList) := rfl

lemma mem_appendStmts_inv {raw stmt : List Char}
    (h : stmt ∈ appendStmts raw) :
    ∃ line ∈ splitLines (pyStripList raw),
      delimMarkers.contains (pyStripList line) = false ∧
        stmt = renderAppend (pyStripList line) := by
  unfold appendStmts at h
  obtain ⟨line, hline, hemit⟩ := List.mem_filterMap.mp h
  obtain ⟨hdelim, hstmt⟩ := emitLine_some_inv hemit
  exact ⟨line, hline, hdelim, hstmt⟩

lemma mem_convertLines_no_newline (raw : List Char) :
    ∀ l ∈ convertLines raw, '\n' ∉ l := by
  intro l hl
  unfold convertLines at hl
  rcases List.mem_cons.mp hl with h | h
  · subst h; decide
  rcases List.mem_append.mp h with h | h
  · obtain ⟨line, hline, _, hstmt⟩ := mem_appendStmts_inv h
    subst hstmt
    refine renderAppend_no_newline (fun hc => ?_)
    exact mem_splitLines_no_newline _ line hline (mem_pyStripList hc)
  · rw [List.mem_singleton.mp h]; decide

lemma splitLines_convert (raw : String) :
    splitLines (convert_raw_string_to_stringbuilder raw).toList =
      convertLines raw.toList := by
  rw [convert_toList]
  exact splitLines_joinNL _ (by simp [convertLines])
    (mem_convertLines_no_newline raw.toList)

lemma head_initStmt_append (x : List Char) : (initStmt ++ x).head? = some 'v' :=
  rfl

/-! ### Embedding of src/scripts/fix-scanners.py: the batch driver loop -/

/-- The fixed list of scanner files enumerated by the `__main__` block of
`fix-scanners.py`, in source order. -/
def scanner_files : List String :=
  ["src/Platform.Engineering.Copilot.Core/Services/Compliance/Scanners/ContingencyPlanningScanner.cs",
   "src/Platform.Engineering.Copilot.Core/Services/Compliance/Scanners/IdentificationAuthenticationScanner.cs",
   "src/Platform.Engineering.Copilot.Core/Services/Compliance/Scanners/ConfigurationManagementScanner.cs",
   "src/Platform.Engineering.Copilot.Core/Services/Compliance/Scanners/IncidentResponseScanner.cs",
   "src/Platform.Engineering.Copilot.Core/Services/Compliance/Scanners/RiskAssessmentScanner.cs",
   "src/Platform.Engineering.Copilot.Core/Services/Compliance/Scanners/SecurityAssessmentScanner.cs"]

/-- One iteration of the driver loop: run the fallible per-file fix
(`fix_scanner_file`, abstracted as `fix` since it performs file I/O), catch
any error as the `except` clause does, and report the outcome message. -/
def batchStep (fix : String → Except String Unit) (filepath : String) :
    String :=
  match fix filepath with
  | Except.ok _ => "Fixed " ++ filepath
  | Except.error e => "Error fixing " ++ filepath ++ ": " ++ e

/-- The whole driver loop: every file of the list is attempted in order, one
outcome message per file, regardless of earlier failures. -/
def runBatch (fix : String → Except String Unit) (files : List String) :
    List String :=
  files.map (batchStep fix)

/-- A concrete fallible fix used to exercise the driver: it fails on the
first scanner file and succeeds on every other path. -/
def failingFix (f : String) : Except String Unit :=
  if f = "src/Platform.Engineering.Copilot.Core/Services/Compliance/Scanners/ContingencyPlanningScanner.cs"
  then Except.error "boom" else Except.ok ()

/-! ### The claims -/

/-- C1: for every input, the converter's output decomposes into the
initialization line, the append statements, and the materialize line; the
append statements are exactly one per non-delimiter line of the trimmed and
split input block, in input order, each carrying that line's trimmed content,
so `n` non-delimiter lines yield exactly `n` append statements between
initialization and materialize. -/
theorem spec_C1 (raw : String) :
    splitLines (convert_raw_string_to_stringbuilder raw).toList =
      initStmt :: (appendStmts raw.toList ++ [materializeStmt]) ∧
    appendStmts raw.toList =
      ((splitLines (pyStripList raw.toList)).filter
          (fun l => ! delimMarkers.contains (pyStripList l))).map
        (fun l => renderAppend (pyStripList l)) ∧
    (appendStmts raw.toList).length =
      ((splitLines (pyStripList raw.toList)).filter
          (fun l => ! delimMarkers.contains (pyStripList l))).length := by
  refine ⟨splitLines_convert raw, filterMap_emitLine _, ?_⟩
  rw [appendStmts, filterMap_emitLine, List.length_map]

/-- C2: for every input, the converter's output has the initialization
statement as its first line and the materialize statement as its last line,
and neither statement occurs as any other line of the output. -/
theorem spec_C2 (raw : String) :
    ∃ mid, splitLines (convert_raw_string_to_stringbuilder raw).toList =
        initStmt :: (mid ++ [materializeStmt]) ∧
      initStmt ∉ mid ∧ materializeStmt ∉ mid ∧ initStmt ≠ materializeStmt := by
  refine ⟨appendStmts raw.toList, splitLines_convert raw, ?_, ?_, by decide⟩
  · intro hmem
    obtain ⟨line, _, _, hstmt⟩ := mem_appendStmts_inv hmem
    exact renderAppend_ne_init (pyStripList line) hstmt.symm
  · intro hmem
    obtain ⟨line, _, _, hstmt⟩ := mem_appendStmts_inv hmem
    exact renderAppend_ne_materialize (pyStripList line) hstmt.symm

/-- C3: for a non-delimiter, non-blank line, classification depends only on
brace presence in the trimmed line: if the trimmed line contains at least one
left and one right brace it is emitted as an interpolated append, otherwise
(including a lone unmatched brace) as a plain literal append. -/
theorem spec_C3 (line : List Char)
    (hd : delimMarkers.contains (pyStripList line) = false)
    (hb : pyStripList line ≠ []) :
    (((pyStripList line).contains lbrace &&
        (pyStripList line).contains rbrace) = true →
      emitLine line = some (intPre ++ pyStripList line ++ sufx)) ∧
    (((pyStripList line).contains lbrace &&
        (pyStripList line).contains rbrace) = false →
      emitLine line = some (litPre ++ pyStripList line ++ sufx)) := by
  have hne : ¬ (pyStripList line).isEmpty = true := by
    simpa [List.isEmpty_iff] using hb
  constructor
  · intro hbr
    rw [emitLine_eq_some hd]
    unfold renderAppend
    rw [if_neg hne, if_pos hbr]
  · intro hbr
    rw [emitLine_eq_some hd]
    unfold renderAppend
    rw [if_neg hne, if_neg (by rw [hbr]; exact Bool.false_ne_true)]

/-- C3 witness: the line `Status: done` followed by a lone right brace is not
a delimiter, is not blank, lacks a left brace, and is emitted as a plain
literal append. -/
theorem spec_C3_witness :
    emitLine ("Status: done\x7d".toList) =
      some (litPre ++ pyStripList ("Status: done\x7d".toList) ++ sufx) :=
  (spec_C3 ("Status: done\x7d".toList) (by decide) (by decide)).2 (by decide)

/-- C4: delimiter elision is content-based: any line whose trimmed content is
one of the four delimiter markers produces no append statement wherever it
occurs, and every append statement carries a content that is not a delimiter
marker, so no marker ever appears verbatim as an appended line's content. -/
theorem spec_C4 :
    (∀ line : List Char, delimMarkers.contains (pyStripList line) = true →
      emitLine line = none) ∧
    (∀ raw stmt : List Char, stmt ∈ appendStmts raw →
      ∃ content, delimMarkers.contains content = false ∧
        stmt = renderAppend content) := by
  constructor
  · exact fun line h => emitLine_eq_none h
  · intro raw stmt h
    obtain ⟨line, _, hdelim, hstmt⟩ := mem_appendStmts_inv h
    exact ⟨pyStripList line, hdelim, hstmt⟩

/-- C4 witness: an indented closing-delimiter line in the middle of a block
is skipped, and the single append statement produced for the input `a`
carries a non-delimiter content. -/
theorem spec_C4_witness :
    emitLine ("  \"\"\"  ".toList) = none ∧
    ∃ content, delimMarkers.contains content = false ∧
      "sb.AppendLine(\"a\");".toList = renderAppend content :=
  ⟨spec_C4.1 ("  \"\"\"  ".toList) (by decide),
   spec_C4.2 ("a".toList) ("sb.AppendLine(\"a\");".toList) (by decide)⟩

/-- C5 counterexample: on the empty string the converter emits a blank append
statement, so the output is not just initialization followed by materialize
as the claim states. -/
theorem spec_C5_cex :
    convert_raw_string_to_stringbuilder "" ≠
      "var sb = new StringBuilder();\nreturn sb.ToString();" ∧
    convert_raw_string_to_stringbuilder "" =
      "var sb = new StringBuilder();\nsb.AppendLine();\nreturn sb.ToString();" := by
  decide

/-- C5 (amended): an input that strips to the empty string (including the
empty string itself) yields initialization, one blank append, materialize,
because splitting the empty string produces a single empty line; an input
whose every line trims to a delimiter marker (so in particular delimiter
lines with surrounding blank lines trimmed away) yields initialization
immediately followed by materialize with zero append statements. -/
theorem spec_C5 :
    (∀ raw : String, pyStripList raw.toList = [] →
      convert_raw_string_to_stringbuilder raw =
        "var sb = new StringBuilder();\nsb.AppendLine();\nreturn sb.ToString();") ∧
    (∀ raw : String,
      (∀ l ∈ splitLines (pyStripList raw.toList),
        delimMarkers.contains (pyStripList l) = true) →
      convert_raw_string_to_stringbuilder raw =
        "var sb = new StringBuilder();\nreturn sb.ToString();") := by
  constructor
  · intro raw h
    show String.mk (joinNL (convertLines raw.toList)) = _
    rw [convertLines, appendStmts, h]
    decide
  · intro raw h
    have happ : appendStmts raw.toList = [] := by
      rw [appendStmts, List.filterMap_eq_nil_iff]
      exact fun l hl => emitLine_eq_none (h l hl)
    show String.mk (joinNL (convertLines raw.toList)) = _
    rw [convertLines, happ]
    decide

/-- C5 witness: the empty string strips to empty and yields the blank-append
output; a block of one opening and one closing delimiter yields the
zero-append output. -/
theorem spec_C5_witness :
    convert_raw_string_to_stringbuilder "" =
      "var sb = new StringBuilder();\nsb.AppendLine();\nreturn sb.ToString();" ∧
    convert_raw_string_to_stringbuilder "$\"\"\"\n\"\"\"" =
      "var sb = new StringBuilder();\nreturn sb.ToString();" :=
  ⟨spec_C5.1 "" (by decide), spec_C5.2 "$\"\"\"\n\"\"\"" (by decide)⟩

/-- C6: the converter is total and always returns a defined, non-empty
output: it is a plain function on strings and its result is never the empty
string. -/
theorem spec_C6 (raw : String) :
    convert_raw_string_to_stringbuilder raw ≠ "" := by
  intro h
  have h2 : joinNL (convertLines raw.toList) = ([] : List Char) :=
    congrArg String.toList h
  rw [convertLines] at h2
  cases happ : appendStmts raw.toList with
  | nil =>
    rw [happ] at h2
    exact absurd h2 (by decide)
  | cons a as =>
    rw [happ, List.cons_append, joinNL_cons₂] at h2
    have h3 := congrArg List.head? h2
    rw [head_initStmt_append] at h3
    exact absurd h3 (by decide)

/-- C7: on the concrete four-line block of Scenario 2 (open delimiter, blank
line, an interpolated value line, close delimiter) the converter returns
exactly initialization, a blank append, an interpolated append of the value
line, and materialize. -/
theorem spec_C7 :
    convert_raw_string_to_stringbuilder "$\"\"\"\n\nValue: \x7bx\x7d\n\"\"\"" =
      "var sb = new StringBuilder();\nsb.AppendLine();\nsb.AppendLine($\"Value: \x7bx\x7d\");\nreturn sb.ToString();" := by
  decide

/-- C8: the converter is deterministic and side-effect free: it is a pure
function of its input, so equal inputs always give equal outputs. -/
theorem spec_C8 (s t : String) (h : s = t) :
    convert_raw_string_to_stringbuilder s =
      convert_raw_string_to_stringbuilder t := by
  rw [h]

/-- C8 witness: two invocations on the same literal input agree. -/
theorem spec_C8_witness :
    convert_raw_string_to_stringbuilder "a" =
      convert_raw_string_to_stringbuilder "a" :=
  spec_C8 "a" "a" rfl

/-- C9: the batch driver attempts every file of the list: for every position,
the run produces exactly one outcome message, and that message depends only
on the per-file fix at that file, so an error raised on any file (caught by
the driver) cannot prevent the attempt on any subsequent file. -/
theorem spec_C9 (fix : String → Except String Unit) (files : List String)
    (i : Nat) (h : i < files.length) :
    (runBatch fix files).length = files.length ∧
    (runBatch fix files)[i]? = some (batchStep fix (files.get ⟨i, h⟩)) := by
  constructor
  · rw [runBatch, List.length_map]
  · rw [runBatch, List.getElem?_map, List.getElem?_eq_getElem h]
    rfl

/-- C9 witness: with a fix that fails on the first scanner file, the batch
over the six scanner files still has six outcomes and still attempts the
last file. -/
theorem spec_C9_witness :
    (runBatch failingFix scanner_files).length = scanner_files.length ∧
    (runBatch failingFix scanner_files)[5]? =
      some (batchStep failingFix (scanner_files.get ⟨5, by decide⟩)) :=
  spec_C9 failingFix scanner_files 5 (by decide)

/-- C10: every line of the output other than the first and the last is a
blank, literal, or interpolated append statement whose text carries no
newline, and the number of output lines is two plus the number of append
statements. -/
theorem spec_C10 (raw : String) :
    (splitLines (convert_raw_string_to_stringbuilder raw).toList).length =
      2 + (appendStmts raw.toList).length ∧
    ∀ l ∈ ((splitLines
        (convert_raw_string_to_stringbuilder raw).toList).drop 1).dropLast,
      l = blankStmt ∨
      (∃ t, l = litPre ++ t ++ sufx ∧ '\n' ∉ t) ∨
      (∃ t, l = intPre ++ t ++ sufx ∧ '\n' ∉ t) := by
  have hsplit := splitLines_convert raw
  constructor
  · rw [hsplit, convertLines]
    simp only [List.length_cons, List.length_append, List.length_nil]
    omega
  · intro l hl
    rw [hsplit, convertLines, List.drop_succ_cons, List.drop_zero,
      List.dropLast_concat] at hl
    obtain ⟨line, hline, _, hstmt⟩ := mem_appendStmts_inv hl
    have hnn : '\n' ∉ pyStripList line := fun hc =>
      mem_splitLines_no_newline _ line hline (mem_pyStripList hc)
    subst hstmt
    unfold renderAppend
    split
    · exact Or.inl rfl
    split
    · exact Or.inr (Or.inr ⟨pyStripList line, rfl, hnn⟩)
    · exact Or.inr (Or.inl ⟨pyStripList line, rfl, hnn⟩)

/-- C10 witness: for the input `Hello` the output has three lines, and its
single middle line is a literal append whose text has no newline. -/
theorem spec_C10_witness :
    (splitLines (convert_raw_string_to_stringbuilder "Hello").toList).length =
      2 + (appendStmts "Hello".toList).length ∧
    ("sb.AppendLine(\"Hello\");".toList = blankStmt ∨
      (∃ t, "sb.AppendLine(\"Hello\");".toList = litPre ++ t ++ sufx ∧
        '\n' ∉ t) ∨
      (∃ t, "sb.AppendLine(\"Hello\");".toList = intPre ++ t ++ sufx ∧
        '\n' ∉ t)) :=
  ⟨(spec_C10 "Hello").1,
   (spec_C10 "Hello").2 ("sb.AppendLine(\"Hello\");".toList) (by decide)⟩
